import Mathlib

/-!
Verification of `copy-clipboard` (dealfonso/copy-clipboard).

A shallow embedding of `src/copy-clipboard.js` (v1.0.2). The library binds
click handlers to DOM elements so that clicking them copies text or image
content to the system clipboard, plus a `handlePaste` helper interpreting
paste events.

Modelling conventions:
* JavaScript option values (`null`, booleans, numbers, strings, `File`s,
  `HTMLElement`s, arrays) are modelled by the inductive `JSVal`; JS numbers
  are modelled by `Int` (no claim here touches fractional or NaN values).
* DOM elements that serve as copy *targets* are `Elem` records holding the
  attributes the code reads (`tagName`, `value`, `alt`, `title`, `src`,
  `innerText`, `textContent`, `text`, and the selected option's text for
  `<select>`). Absent string attributes are `""`, which is exactly the JS
  falsy case that `a || b` falls through on.
* `document.querySelectorAll` / `element.querySelectorAll` are abstracted as
  functions `JSVal → List Elem` supplied to the handler: selector matching is
  platform behaviour, not this library's.
* Clipboard writes, warnings and callbacks are effect traces
  (`List ClipAction`, `List PasteEffect`), so theorems can speak about what
  got written/dispatched. A `warn` effect records that the `WARNING` closure
  was invoked (whether it reaches the console depends on `suppressWarnings`,
  which no claim tracks).
* Elements processed by `copyClipboard` are `ElemState` records: a `dataset`
  (association list keyed by the camel-case dataset keys the DOM exposes,
  e.g. attribute `data-copy-target` appears as key `"copyTarget"`), the list
  of registered copy click listeners (by identity), and the `_copyClipboard`
  expando record. Fresh listener identities are threaded as `Nat`s.
-/

namespace CopyClipboard

/-- A DOM element as read by the text-extraction code of `copyHandler` and by
`copyImageToClipboard`. `tag` is the element's `tagName` (the code lowercases
it before comparing). `selectedOptionText` stands for
`options[selectedIndex].text` of a `<select>`. -/
structure Elem where
  tag : String
  value : String := ""
  alt : String := ""
  title : String := ""
  src : String := ""
  innerText : String := ""
  textContent : String := ""
  text : String := ""
  selectedOptionText : String := ""
  deriving Repr, DecidableEq

/-- JavaScript values that can occur as option values in this library. -/
inductive JSVal where
  | null
  | bool (b : Bool)
  | num (n : Int)
  | str (s : String)
  /-- a `File`, carrying its MIME `type` -/
  | file (ftype : String)
  /-- an `HTMLElement` -/
  | element (e : Elem)
  /-- an array of strings (the only arrays the code consumes, via `join`) -/
  | arr (xs : List String)
  deriving Repr, DecidableEq

/-- JS truthiness of a `JSVal` (`if (v)`): `null`, `false`, `0` and `""` are
falsy; every object (File, element, array - even an empty array) is truthy. -/
def truthy : JSVal → Bool
  | .null => false
  | .bool b => b
  | .num n => n != 0
  | .str s => s != ""
  | .file _ => true
  | .element _ => true
  | .arr _ => true

/-- JS `String(v)` coercion as used by `clipboard.writeText` and
`Array.prototype.join`. Only the `str`/`num` cases are reached by the code
paths the claims exercise. -/
def jsString : JSVal → String
  | .null => "null"
  | .bool b => if b then "true" else "false"
  | .num n => toString n
  | .str s => s
  | .file _ => "[object File]"
  | .element _ => "[object HTMLElement]"
  | .arr xs => String.intercalate "," xs

/-- JS `a || b` on strings: `""` is the only falsy string. -/
def jsOr (a b : String) : String := if a = "" then b else a

/-- JS `String.prototype.toLowerCase` (the code only meets ASCII data). -/
def jsToLower (s : String) : String := String.mk (s.data.map Char.toLower)

/-- JS `String.prototype.startsWith`. -/
def jsStartsWith (s p : String) : Bool := p.data.isPrefixOf s.data

/-- JS `str.split("-")` with a one-character separator, on character lists. -/
def splitOnChar (c : Char) : List Char → List (List Char)
  | [] => [[]]
  | x :: xs =>
    if x = c then [] :: splitOnChar c xs
    else
      match splitOnChar c xs with
      | [] => [[x]]
      | g :: gs => (x :: g) :: gs

/-- JS `v.charAt(0).toUpperCase() + v.slice(1)` (on an empty string both halves
are empty, exactly as in JS). -/
def upperFirst : List Char → List Char
  | [] => []
  | c :: cs => c.toUpper :: cs

/-- JS `s.charAt(0).toLowerCase() + s.slice(1)`. -/
def lowerFirst : List Char → List Char
  | [] => []
  | c :: cs => c.toLower :: cs

/-- The function `snakeToCamel` from the source: split on `-`, capitalize each piece's
first character, join, then lowercase the first character of the result. -/
def snakeToCamel (str : String) : String :=
  let stage1 := ((splitOnChar '-' str.data).map upperFirst).flatten
  String.mk (lowerFirst stage1)

/-- The function `mergeOptions(target, options, prefix)` from the source, with the
element's `dataset` as an association list (camel-case dataset keys) and the
options object as an association list in key-insertion order. For every key
of `options`, the result takes the dataset entry named
`snakeToCamel(prefix + "-" + key)` when present (dataset values are always
strings), and the provided option value otherwise. `mergePrefix` is the
initial step that appends `"-"` to a non-empty prefix. -/
def mergePrefix (pre : String) : String := if pre ≠ "" then pre ++ "-" else pre

def mergeOptions (dataset : List (String × String)) (options : List (String × JSVal))
    (pre : String) : List (String × JSVal) :=
  options.map fun kv =>
    match dataset.lookup (snakeToCamel (mergePrefix pre ++ kv.1)) with
    | some dv => (kv.1, JSVal.str dv)
    | none => kv

/-- The function `boolVal` from the source. The three guards `!!v === v`, `+v === v` and
`''+v === v` are type tests for boolean, number and string respectively; any
other value falls through to `!!value` (its truthiness). For a number the
code is `if (value == 0) return false; return true;`; for a string it is
`value.toLowerCase() === 'true'`. -/
def boolVal : JSVal → Bool
  | .bool b => b
  | .num n => if n = 0 then false else true
  | .str s => jsToLower s == "true"
  | v => truthy v

/-- The options object after `Object.assign({}, DEFAULT_OPTIONS, options)`:
every key of `DEFAULT_OPTIONS` is present (caller-supplied keys override the
defaults, missing keys keep them), so we model it as a record with one field
per key of `DEFAULT_OPTIONS`. -/
structure Options where
  target : JSVal := .null
  targetChildren : JSVal := .null
  multiple : JSVal := .bool true
  joinText : JSVal := .str "\n"
  images : JSVal := .bool true
  value : JSVal := .null
  suppressWarnings : JSVal := .bool true
  debug : JSVal := .bool false
  deriving Repr, DecidableEq

/-- The constant `DEFAULT_OPTIONS` from the source. -/
def DEFAULT_OPTIONS : Options := {}

/-- Reading one option from the element's dataset: the dataset entry (always
a string) when present, the fallback otherwise. -/
def datasetGet (dataset : List (String × String)) (k : String) (fallback : JSVal) : JSVal :=
  match dataset.lookup k with
  | some dv => JSVal.str dv
  | none => fallback

/-- The call `mergeOptions(copyable, options, "copy")` specialised to the full option
record: for each key `k` the dataset key is `snakeToCamel("copy-" + k)`,
i.e. `"copyTarget"`, `"copyTargetChildren"`, `"copyMultiple"`,
`"copyJoinText"`, `"copyImages"`, `"copyValue"`, `"copySuppressWarnings"`,
`"copyDebug"` (the DOM exposes attribute `data-copy-target` as dataset key
`"copyTarget"`, and so on). -/
def mergeElementOptions (dataset : List (String × String)) (o : Options) : Options where
  target := datasetGet dataset "copyTarget" o.target
  targetChildren := datasetGet dataset "copyTargetChildren" o.targetChildren
  multiple := datasetGet dataset "copyMultiple" o.multiple
  joinText := datasetGet dataset "copyJoinText" o.joinText
  images := datasetGet dataset "copyImages" o.images
  value := datasetGet dataset "copyValue" o.value
  suppressWarnings := datasetGet dataset "copySuppressWarnings" o.suppressWarnings
  debug := datasetGet dataset "copyDebug" o.debug

/-! ## The click handler (`copyHandler`)

The handler's observable behaviour is a trace of clipboard writes and
warnings. `copyImageToClipboard(targetElement)` shows up as
`ClipAction.writeImage`; its internal two-attempt logic is modelled
separately below. -/

/-- One observable effect of a click on a copyable element. -/
inductive ClipAction where
  /-- invocation of `copyTextToClipboard(s)` -/
  | writeText (s : String)
  /-- invocation of `copyImageToClipboard(targetElement)` -/
  | writeImage (e : Elem)
  /-- invocation of `navigator.clipboard.write` with a `ClipboardItem` built from a `File`
  of the given MIME type (the `options.value instanceof File` case) -/
  | writeImageFile (ftype : String)
  /-- the `WARNING` closure was invoked with this message -/
  | warn (msg : String)
  deriving Repr, DecidableEq

def unsupportedValueMsg : String :=
  "Unsupported value type for copying. Expected string, number, HTMLElement or array."

def noTargetsMsg : String := "No target elements found for selector."

/-- The test `targetElement.tagName.toLowerCase() === 'img'`. -/
def isImg (t : Elem) : Bool := jsToLower t.tag == "img"

/-- The per-target text extraction of `copyHandler` (the non-image branch):
`input`/`textarea` use `value`, `select` uses the selected option's text,
`img` uses `alt || title || src`, anything else uses
`innerText || textContent || value || text || alt || ''`. -/
def extractText (t : Elem) : String :=
  let tag := jsToLower t.tag
  if tag == "input" || tag == "textarea" then jsOr t.value ""
  else if tag == "select" then jsOr t.selectedOptionText ""
  else if tag == "img" then jsOr t.alt (jsOr t.title (jsOr t.src ""))
  else jsOr t.innerText (jsOr t.textContent (jsOr t.value (jsOr t.text (jsOr t.alt ""))))

/-- JS `Array.prototype.join(sep)`. -/
def joinWith (sep : String) : List String → String
  | [] => ""
  | [x] => x
  | x :: xs => x ++ sep ++ joinWith sep xs

/-- The `for (const targetElement of targetElements)` loop of `copyHandler`:
on the first `img` (with images enabled) it copies that image and returns,
discarding any texts accumulated so far; otherwise it pushes each target's
text and finally, when any text was collected, writes the joined text. -/
def processTargets (images : Bool) (joinStr : String) :
    List Elem → List String → List ClipAction
  | [], acc =>
    if acc.length > 0 then [ClipAction.writeText (joinWith joinStr acc)] else []
  | t :: ts, acc =>
    if images && isImg t then [ClipAction.writeImage t]
    else processTargets images joinStr ts (acc ++ [extractText t])

/-- The `elementOptions.value` branch of `copyHandler`. Note that every
inspection inside the branch reads `options.value` (the per-call options
captured by the closure), not `elementOptions.value`. The JS chain
(File-and-image first, then string/number, HTMLElement, array, else warn)
is rendered as a match on the value's kind: a `File` that fails the
`options.images && type.startsWith('image/')` test also fails the three
later type tests and reaches the warning. -/
def valueBranch (options : Options) : List ClipAction :=
  match options.value with
  | .file t =>
    if truthy options.images && jsStartsWith t "image/" then [ClipAction.writeImageFile t]
    else [ClipAction.warn unsupportedValueMsg]
  | .str s => [ClipAction.writeText s]
  | .num n => [ClipAction.writeText (toString n)]
  | .element e => [ClipAction.writeText (jsOr e.innerText e.textContent)]
  | .arr xs => [ClipAction.writeText (joinWith "\n" xs)]
  | .null => [ClipAction.warn unsupportedValueMsg]
  | .bool _ => [ClipAction.warn unsupportedValueMsg]

/-- The target collection of `copyHandler`:
`targets = [...document.querySelectorAll(elementOptions.target),
...copyable.querySelectorAll(elementOptions.targetChildren)]`, each query
guarded by the truthiness of its selector option. `qDoc sel` models
`document.querySelectorAll(sel)` and `qChild sel` models
`copyable.querySelectorAll(sel)`. -/
def collectTargets (elementOptions : Options) (qDoc qChild : JSVal → List Elem) : List Elem :=
  (if truthy elementOptions.target then qDoc elementOptions.target else [])
    ++ (if truthy elementOptions.targetChildren then qChild elementOptions.targetChildren else [])

/-- The `multiple` selection step of `copyHandler`: all targets when
`boolVal(elementOptions.multiple)`, otherwise only `targets[0]`. -/
def selectTargets (elementOptions : Options) (targets : List Elem) : List Elem :=
  if boolVal elementOptions.multiple then targets else targets.take 1

/-- The function `copyHandler` from the source. `options` are the per-call options (after
`Object.assign` with the defaults), `elementOptions` the result of
`mergeOptions(copyable, options, "copy")`. -/
def copyHandler (options elementOptions : Options) (qDoc qChild : JSVal → List Elem) :
    List ClipAction :=
  if truthy elementOptions.value then valueBranch options
  else
    let targets := collectTargets elementOptions qDoc qChild
    if targets.length = 0 then [ClipAction.warn noTargetsMsg]
    else
      processTargets (boolVal elementOptions.images) (jsString elementOptions.joinText)
        (selectTargets elementOptions targets) []

/-! ## `copyClipboard`: listener registration state -/

/-- The `copyable._copyClipboard` expando: the merged options and (the
identity of) the registered `copyHandler` closure. -/
structure CopyRecord where
  id : Nat
  options : Options
  deriving Repr, DecidableEq

/-- An element as `copyClipboard` sees it: its dataset, the identities of its
registered copy click listeners, and the `_copyClipboard` expando. -/
structure ElemState where
  dataset : List (String × String) := []
  listeners : List Nat := []
  record : Option CopyRecord := none
  deriving Repr, DecidableEq

/-- The guard `!elementOptions.target && !elementOptions.targetChildren &&
!elementOptions.value` (negated): the element has something to copy. -/
def hasCopySource (eo : Options) : Bool :=
  truthy eo.target || truthy eo.targetChildren || truthy eo.value

/-- The body of `copyClipboard`'s `for (const copyable of elements)` loop for
one element: merge the dataset over the options; when nothing is configured
to copy, warn and leave the element untouched (`continue`); otherwise remove
a previously recorded handler (with its expando) if any, then register a
fresh handler and record it. `fresh` is the identity of the new
`copyHandler` closure. -/
def processElement (options : Options) (fresh : Nat) (el : ElemState) : ElemState :=
  let eo := mergeElementOptions el.dataset options
  if !hasCopySource eo then el
  else
    let el1 :=
      match el.record with
      | some r => { el with listeners := el.listeners.erase r.id, record := none }
      | none => el
    { el1 with record := some ⟨fresh, eo⟩, listeners := el1.listeners ++ [fresh] }

/-- The function `copyClipboard(element, options)` restricted to what it does to the
matched elements: the selector/HTMLElement resolution yields `els` (empty
when nothing matches, in which case the function only warns and returns),
and each matched element is processed in order with a fresh handler
identity. -/
def copyClipboardRun (options : Options) (fresh : Nat) : List ElemState → List ElemState
  | [] => []
  | el :: rest => processElement options fresh el :: copyClipboardRun options (fresh + 1) rest

/-! ## The `DOMContentLoaded` auto-setup -/

/-- Membership in `querySelectorAll('[data-copy-target],[data-copy-value],
[data-copy-target-children]')`: the element carries at least one of the
three attributes (dataset keys `copyTarget`, `copyValue`,
`copyTargetChildren`). -/
def hasAutoCopyAttr (el : ElemState) : Bool :=
  (el.dataset.lookup "copyTarget").isSome
    || (el.dataset.lookup "copyValue").isSome
    || (el.dataset.lookup "copyTargetChildren").isSome

/-- The `DOMContentLoaded` listener: for every element matching the
auto-setup selector, call `copyClipboard(element,
mergeOptions(element, DEFAULT_OPTIONS, 'copy'))`; other elements are not
touched. (`copyClipboard` with a single `HTMLElement` argument runs
`processElement` on it.) -/
def onDOMContentLoaded (fresh : Nat) : List ElemState → List ElemState
  | [] => []
  | el :: rest =>
    (if hasAutoCopyAttr el then
        processElement (mergeElementOptions el.dataset DEFAULT_OPTIONS) fresh el
      else el)
      :: onDOMContentLoaded (fresh + 1) rest

/-! ## `copyImageToClipboard`

`getImage(imageElement, changeCrossOrigin)` either captures the provided
`HTMLImageElement` directly on a canvas (`changeCrossOrigin = false`), or
builds a fresh `Image` with `crossOrigin = 'anonymous'` and the original's
`src` (`changeCrossOrigin = true`). When `imageElement` is a string it is
treated as a URL and - in both calls, since the string check precedes the
`changeCrossOrigin` check - a fresh `crossOrigin = 'anonymous'` image is
loaded from it. A non-image, non-string argument makes `getImage` throw.

Whether the canvas capture / image load succeeds is host behaviour, so the
outcomes of the (at most two) `getImage` calls are supplied as oracles
`res1`, `res2`. -/

/-- The argument of `copyImageToClipboard`. -/
inductive ImgInput where
  | url (s : String)
  | img (e : Elem)
  /-- anything that is neither a string nor an `HTMLImageElement` -/
  | notImage
  deriving Repr, DecidableEq

/-- The blob produced by `canvas.toBlob` (the code only uses its `type`). -/
structure Blob where
  type : String := "image/png"
  deriving Repr, DecidableEq

/-- How one `getImage` call tries to obtain the pixels: whether a fresh image
element with `crossOrigin = 'anonymous'` was created, and the `src` drawn
from. -/
structure AttemptDesc where
  crossOriginAnonymous : Bool
  src : String
  deriving Repr, DecidableEq

/-- The capture attempt performed by `getImage(input, changeCrossOrigin)`,
`none` when `getImage` throws `'Provided element is not an image'` before
attempting anything. -/
def getImageAttempt : ImgInput → Bool → Option AttemptDesc
  | .url s, _ => some ⟨true, s⟩
  | .img e, changeCrossOrigin => some ⟨changeCrossOrigin, e.src⟩
  | .notImage, _ => none

/-- The function `copyImageToClipboard`: first `getImage(imageElement, false)`; only when
that fails (caught, `blob` still `null`) a single retry
`getImage(imageElement, true)`. Returns the list of capture attempts made
and the blob handed to `navigator.clipboard.write` (`none` when both
attempts failed). -/
def copyImageToClipboard (input : ImgInput) (res1 res2 : Except String Blob) :
    List AttemptDesc × Option Blob :=
  let a1 := getImageAttempt input false
  let r1 : Except String Blob :=
    match a1 with
    | none => .error "Provided element is not an image"
    | some _ => res1
  match r1 with
  | .ok b => (a1.toList, some b)
  | .error _ =>
    let a2 := getImageAttempt input true
    let r2 : Except String Blob :=
      match a2 with
      | none => .error "Provided element is not an image"
      | some _ => res2
    match r2 with
    | .ok b => (a1.toList ++ a2.toList, some b)
    | .error _ => (a1.toList ++ a2.toList, none)

/-! ## `handlePaste` -/

/-- A `DataTransferItem`: its `kind` (`"file"` or `"string"`), MIME `type`,
whether `getAsFile()` yields a file (rather than `null`), and the text
`getAsString` would deliver. -/
structure ClipItem where
  kind : String
  type : String
  fileAvailable : Bool := true
  text : String := ""
  deriving Repr, DecidableEq

/-- The clipboard data of a paste event (`event.clipboardData ||
window.clipboardData` when present at all): its `items` list when the
`items` property exists (an empty `DataTransferItemList` is still truthy),
and the result of `getData("Text")` (`""` for no data, which is falsy). -/
structure ClipboardData where
  items : Option (List ClipItem) := none
  getDataText : String := ""
  deriving Repr, DecidableEq

/-- Which of the three callbacks of the (default-merged) options are
functions. `Object.assign` with `handlePaste`'s `DEFAULT_OPTIONS` makes all
three functions unless the caller overrides one with a non-function. -/
structure PasteOptions where
  onPasteImageIsFn : Bool := true
  onPasteTextIsFn : Bool := true
  onErrorIsFn : Bool := true
  deriving Repr, DecidableEq

/-- An observable callback invocation of `handlePaste`. -/
inductive PasteEffect where
  | pasteImage (item : ClipItem)
  | pasteText (s : String)
  | pasteError (msg : String)
  deriving Repr, DecidableEq

/-- Returns `true` for the content-dispatching callbacks (`onPasteImage`,
`onPasteText`), `false` for `onError`. -/
def PasteEffect.isDispatch : PasteEffect → Bool
  | .pasteImage _ => true
  | .pasteText _ => true
  | .pasteError _ => false

def noClipboardMsg : String :=
  "No clipboard data available. Please ensure you have copied something to the clipboard before pasting."

def noFileMsg : String :=
  "No file found in clipboard data. Please ensure you have copied an image to the clipboard before pasting."

def noTextMsg : String :=
  "No text data found in clipboard data. Please ensure you have copied text to the clipboard before pasting."

/-- The item the `for` loop of `handlePaste` acts on: an image file item or a
plain-text string item. -/
def pasteMatch (item : ClipItem) : Bool :=
  (item.kind == "file" && jsStartsWith item.type "image/")
    || (item.kind == "string" && item.type == "text/plain")

/-- The `for (var i = 0; ...)` loop over `clipboardData.items`. The loop
`return`s on the first image-file or plain-text item; when no item matches,
control falls off the end of `handlePaste` and the function returns
`undefined` (modelled as `none`) without invoking any callback. -/
def handlePasteItems (opts : PasteOptions) : List ClipItem → Option Bool × List PasteEffect
  | [] => (none, [])
  | item :: rest =>
    if item.kind == "file" && jsStartsWith item.type "image/" then
      if !item.fileAvailable then
        (some false, if opts.onErrorIsFn then [.pasteError noFileMsg] else [])
      else
        (some true, if opts.onPasteImageIsFn then [.pasteImage item] else [])
    else if item.kind == "string" && item.type == "text/plain" then
      (some true, if opts.onPasteTextIsFn then [.pasteText item.text] else [])
    else handlePasteItems opts rest

/-- The function `handlePaste(event, options)`: the first component is the function's
return value (`none` = `undefined`), the second the callback invocations.
`clipboardData` is `event.clipboardData || window.clipboardData`
(`none` when neither exists). -/
def handlePaste (clipboardData : Option ClipboardData) (opts : PasteOptions) :
    Option Bool × List PasteEffect :=
  match clipboardData with
  | none => (some false, if opts.onErrorIsFn then [.pasteError noClipboardMsg] else [])
  | some data =>
    match data.items with
    | some items => handlePasteItems opts items
    | none =>
      if data.getDataText != "" then
        (some true, if opts.onPasteTextIsFn then [.pasteText data.getDataText] else [])
      else
        (some false, if opts.onErrorIsFn then [.pasteError noTextMsg] else [])

/-! ## Claim theorems -/

/-- C8. `boolVal` maps a boolean to itself; a number to `true` exactly when
it is nonzero; a string to `true` exactly when it equals `'true'`
case-insensitively (so any other string, including `'1'` and `'yes'`, maps
to `false`, and since data-attribute values are strings, any attribute value
other than a casing of `'true'` disables a boolean option). -/
theorem boolVal_spec :
    (∀ b : Bool, boolVal (.bool b) = b) ∧
    (∀ n : Int, (boolVal (.num n) = true ↔ n ≠ 0)) ∧
    (∀ s : String, (boolVal (.str s) = true ↔ jsToLower s = "true")) ∧
    (∀ s : String, jsToLower s ≠ "true" → boolVal (.str s) = false) ∧
    boolVal (.str "1") = false ∧ boolVal (.str "yes") = false ∧
    boolVal (.str "TrUe") = true := by
  refine ⟨fun b => rfl, fun n => ?_, fun s => ?_, fun s h => ?_, by decide, by decide, by decide⟩
  · simp only [boolVal]
    split <;> simp_all
  · simp [boolVal]
  · simp [boolVal, h]

/-- Witness for C8: `'yes'` is not a casing of `'true'`, and `boolVal`
maps it to `false`. -/
theorem boolVal_spec_witness :
    jsToLower "yes" ≠ "true" ∧ boolVal (.str "yes") = false :=
  ⟨by decide, boolVal_spec.2.2.2.1 "yes" (by decide)⟩

/-- C3. `mergeOptions` returns an object with exactly the keys of the given
options object (first conjunct: the key list is preserved, in order); each
key's value is the element's dataset entry under the prefixed camelCase
attribute name when present and the provided option value otherwise (second
conjunct, stated through association-list lookup); and the attribute name
for key `'target'` under prefix `'copy'` is `'copyTarget'`, which is how the
DOM exposes the attribute `data-copy-target` (third conjunct). -/
theorem mergeOptions_spec (dataset : List (String × String))
    (options : List (String × JSVal)) (pre : String) :
    ((mergeOptions dataset options pre).map Prod.fst = options.map Prod.fst) ∧
    (∀ k v, options.lookup k = some v →
      (mergeOptions dataset options pre).lookup k =
        some (match dataset.lookup (snakeToCamel (mergePrefix pre ++ k)) with
          | some dv => JSVal.str dv
          | none => v)) ∧
    snakeToCamel (mergePrefix "copy" ++ "target") = "copyTarget" := by
  refine ⟨?_, ?_, by decide⟩
  · induction options with
    | nil => rfl
    | cons kv rest ih =>
      simp only [mergeOptions, List.map_cons] at ih ⊢
      cases h : dataset.lookup (snakeToCamel (mergePrefix pre ++ kv.1)) <;>
        simp [h, ih]
  · induction options with
    | nil => intro k v hkv; simp [List.lookup] at hkv
    | cons kv rest ih =>
      intro k v hkv
      obtain ⟨a, b⟩ := kv
      by_cases hk : k == a
      · have hka : k = a := by simpa using hk
        subst hka
        simp only [List.lookup_cons_self] at hkv
        cases hkv
        cases h : dataset.lookup (snakeToCamel (mergePrefix pre ++ k)) <;>
          simp [mergeOptions, h, List.lookup]
      · have hlk : List.lookup k ((a, b) :: rest) = List.lookup k rest := by
          simp [List.lookup, hk]
        rw [hlk] at hkv
        have := ih k v hkv
        simp only [mergeOptions, List.map_cons]
        cases h : dataset.lookup (snakeToCamel (mergePrefix pre ++ a)) <;>
          simpa [List.lookup, hk, h, mergeOptions] using this

/-- Witness for C3: with dataset entry `copyTarget = "#x"` (attribute
`data-copy-target="#x"`) and options with keys `target` (no dataset entry
for `value`), the merged object takes `target` from the dataset and `value`
from the options. -/
theorem mergeOptions_spec_witness :
    (mergeOptions [("copyTarget", "#x")] [("target", JSVal.null), ("value", JSVal.str "v")]
        "copy").lookup "target" = some (JSVal.str "#x") := by
  have h := (mergeOptions_spec [("copyTarget", "#x")]
    [("target", JSVal.null), ("value", JSVal.str "v")] "copy").2.1 "target" JSVal.null (by decide)
  simpa using h

/-- C7. When the merged element options have a truthy `value` (for example,
one coming only from the `data-copy-value` attribute) but the programmatic
options passed to `copyClipboard` have `value` null, the click handler
enters the value branch via `elementOptions.value` yet every copy case
inspects only `options.value`, so it falls through to the
`Unsupported value type` warning and writes nothing to the clipboard. -/
theorem copyHandler_dataset_value_unsupported (options elementOptions : Options)
    (qDoc qChild : JSVal → List Elem)
    (hval : truthy elementOptions.value = true) (hnull : options.value = JSVal.null) :
    copyHandler options elementOptions qDoc qChild = [ClipAction.warn unsupportedValueMsg] := by
  simp [copyHandler, hval, valueBranch, hnull]

/-- Witness for C7: an element whose merged options carry
`value = "hello"` from its dataset, bound with programmatic options whose
`value` is null, warns and copies nothing on click. -/
theorem copyHandler_dataset_value_unsupported_witness :
    copyHandler {} { value := JSVal.str "hello" } (fun _ => []) (fun _ => [])
      = [ClipAction.warn unsupportedValueMsg] :=
  copyHandler_dataset_value_unsupported {} { value := JSVal.str "hello" }
    (fun _ => []) (fun _ => []) (by decide) rfl

/-- C2 counterexample. The claim quantifies over every input to
`copyImageToClipboard`, but when the input is a string the `typeof
imageElement === 'string'` branch of `getImage` runs before the
`changeCrossOrigin` check: already the first attempt loads a freshly created
image with `crossOrigin = 'anonymous'`, so it is not a direct canvas capture
of the provided image (which would be a non-cross-origin attempt). Concrete
input: the URL string `"u"` with both load attempts failing. -/
theorem copyImageToClipboard_url_cex :
    ((copyImageToClipboard (.url "u") (.error "load failed") (.error "load failed")).fst.head?
        = some { crossOriginAnonymous := true, src := "u" }) ∧
    ((copyImageToClipboard (.url "u") (.error "load failed") (.error "load failed")).fst.head?
        ≠ some { crossOriginAnonymous := false, src := "u" }) := by
  constructor
  · rfl
  · decide

/-- C2 as amended. For every `HTMLImageElement` input, the function first
attempts a direct canvas capture of the provided image; only if that first
attempt fails does it make exactly one further attempt, with a freshly
created image element carrying `crossOrigin = 'anonymous'` and the same
`src` as the original, and it makes no attempts beyond these two. For a
string (URL) input both attempts (still at most two, the second only after
the first fails) load a freshly created `crossOrigin = 'anonymous'` image
from that URL; for any other input no capture attempt is made at all. -/
theorem copyImageToClipboard_attempts (res1 res2 : Except String Blob) :
    (∀ e : Elem,
      (copyImageToClipboard (.img e) res1 res2).fst =
        match res1 with
        | .ok _ => [{ crossOriginAnonymous := false, src := e.src }]
        | .error _ => [{ crossOriginAnonymous := false, src := e.src },
                       { crossOriginAnonymous := true, src := e.src }]) ∧
    (∀ s : String,
      (copyImageToClipboard (.url s) res1 res2).fst =
        match res1 with
        | .ok _ => [{ crossOriginAnonymous := true, src := s }]
        | .error _ => [{ crossOriginAnonymous := true, src := s },
                       { crossOriginAnonymous := true, src := s }]) ∧
    (∀ input : ImgInput, (copyImageToClipboard input res1 res2).fst.length ≤ 2) := by
  refine ⟨fun e => ?_, fun s => ?_, fun input => ?_⟩
  · cases res1 <;> cases res2 <;> simp [copyImageToClipboard, getImageAttempt]
  · cases res1 <;> cases res2 <;> simp [copyImageToClipboard, getImageAttempt]
  · cases input <;> cases res1 <;> cases res2 <;>
      simp [copyImageToClipboard, getImageAttempt]

/-- The item loop of `handlePaste` acts on the first item matching
`pasteMatch` and falls off the end (returning `undefined`, with no callback)
when none matches. -/
lemma handlePasteItems_eq (opts : PasteOptions) (items : List ClipItem) :
    handlePasteItems opts items =
      match items.find? pasteMatch with
      | none => (none, [])
      | some item =>
        if item.kind == "file" && jsStartsWith item.type "image/" then
          if !item.fileAvailable then
            (some false, if opts.onErrorIsFn then [.pasteError noFileMsg] else [])
          else
            (some true, if opts.onPasteImageIsFn then [.pasteImage item] else [])
        else
          (some true, if opts.onPasteTextIsFn then [.pasteText item.text] else []) := by
  induction items with
  | nil => rfl
  | cons item rest ih =>
    by_cases h1 : (item.kind == "file" && jsStartsWith item.type "image/") = true
    · have hm : pasteMatch item = true := by simp [pasteMatch, h1]
      rw [List.find?_cons_of_pos _ hm]
      simp [handlePasteItems, h1]
    · by_cases h2 : (item.kind == "string" && item.type == "text/plain") = true
      · have hm : pasteMatch item = true := by simp [pasteMatch, h2]
        rw [List.find?_cons_of_pos _ hm]
        simp [handlePasteItems, h1, h2]
      · have hm : ¬ pasteMatch item = true := by simp [pasteMatch, h1, h2]
        rw [List.find?_cons_of_neg _ hm]
        simpa [handlePasteItems, h1, h2] using ih

/-- C1 counterexample. The claim says `handlePaste` returns a Boolean for
every paste event, but when the clipboard data has an `items` list
containing no image-file item and no plain-text string item (here: a single
`text/html` string item), the `for` loop completes without returning and the
function falls off its end: it returns `undefined` - neither `true` nor
`false` - and invokes no callback at all (in particular not `onError`). -/
theorem handlePaste_fallthrough_cex :
    handlePaste (some { items := some [{ kind := "string", type := "text/html" }] }) {}
        = (none, []) ∧
    (none : Option Bool) ≠ some true ∧ (none : Option Bool) ≠ some false := by
  refine ⟨rfl, by decide, by decide⟩

/-- C1 as amended. Assuming the three callbacks of the merged options are
functions (as the defaults guarantee): `handlePaste` returns `true` exactly
when it dispatches pasted content to a callback (`onPasteImage` with an
image file or `onPasteText` with plain text); it returns `false`, after
invoking `onError` with an error message, exactly when an error callback is
its only effect - which happens when no clipboard data is available, when
the first matching image item yields no file, and when there is no `items`
list and no text data; however, when an `items` list is present but contains
no image-file item and no plain-text string item, `handlePaste` returns
`undefined` (not a Boolean) and invokes no callback. -/
theorem handlePaste_returns (cd : Option ClipboardData) (opts : PasteOptions)
    (himg : opts.onPasteImageIsFn = true) (htxt : opts.onPasteTextIsFn = true)
    (herr : opts.onErrorIsFn = true) :
    ((handlePaste cd opts).fst = some true ↔
        ∃ e ∈ (handlePaste cd opts).snd, e.isDispatch = true) ∧
    ((handlePaste cd opts).fst = some false ↔
        ∃ m, (handlePaste cd opts).snd = [PasteEffect.pasteError m]) ∧
    ((handlePaste cd opts).fst = none → (handlePaste cd opts).snd = []) ∧
    (cd = none → handlePaste cd opts = (some false, [.pasteError noClipboardMsg])) ∧
    (∀ d items, cd = some d → d.items = some items → items.find? pasteMatch = none →
        handlePaste cd opts = (none, [])) := by
  have hmain :
      ((handlePaste cd opts).fst = some true ↔
        ∃ e ∈ (handlePaste cd opts).snd, e.isDispatch = true) ∧
      ((handlePaste cd opts).fst = some false ↔
        ∃ m, (handlePaste cd opts).snd = [PasteEffect.pasteError m]) ∧
      ((handlePaste cd opts).fst = none → (handlePaste cd opts).snd = []) := by
    match cd with
    | none =>
      simp [handlePaste, herr, PasteEffect.isDispatch]
    | some data =>
      match hitems : data.items with
      | none =>
        by_cases hd : data.getDataText = ""
        · simp [handlePaste, hitems, hd, herr, PasteEffect.isDispatch]
        · simp [handlePaste, hitems, hd, htxt, PasteEffect.isDispatch]
      | some items =>
        simp only [handlePaste, hitems, handlePasteItems_eq]
        match hfind : items.find? pasteMatch with
        | none => simp
        | some item =>
          by_cases h1 : (item.kind == "file" && jsStartsWith item.type "image/") = true
          · by_cases h2 : item.fileAvailable = true
            · simp [h1, h2, himg, PasteEffect.isDispatch]
            · simp [h1, h2, herr, PasteEffect.isDispatch]
          · simp [h1, htxt, PasteEffect.isDispatch]
  refine ⟨hmain.1, hmain.2.1, hmain.2.2, ?_, ?_⟩
  · rintro rfl
    simp [handlePaste, herr]
  · rintro d items rfl hitems hfind
    simp [handlePaste, hitems, handlePasteItems_eq, hfind]

/-- Witness for C1: a paste event with no clipboard data at all makes
`handlePaste` return `false` after invoking `onError`. -/
theorem handlePaste_returns_witness :
    handlePaste none {} = (some false, [.pasteError noClipboardMsg]) :=
  (handlePaste_returns none {} rfl rfl rfl).2.2.2.1 rfl

/-- When no selected target is an image (or image copying is disabled), the
target loop pushes every target's extracted text and writes them joined. -/
lemma processTargets_no_img (images : Bool) (j : String) (l : List Elem) (acc : List String)
    (h : images = false ∨ ∀ x ∈ l, isImg x = false) :
    processTargets images j l acc =
      if (acc ++ l.map extractText).length > 0 then
        [ClipAction.writeText (joinWith j (acc ++ l.map extractText))]
      else [] := by
  induction l generalizing acc with
  | nil => simp [processTargets]
  | cons t ts ih =>
    have hguard : (images && isImg t) = false := by
      rcases h with h | h
      · simp [h]
      · simp [h t (by simp)]
    have hrest : images = false ∨ ∀ x ∈ ts, isImg x = false := by
      rcases h with h | h
      · exact Or.inl h
      · exact Or.inr fun x hx => h x (by simp [hx])
    rw [processTargets, hguard]
    simp only [Bool.false_eq_true, if_false]
    rw [ih (acc ++ [extractText t]) hrest]
    simp [List.append_assoc]

/-- When image copying is enabled and the selected targets contain an image,
the target loop stops at the first one, copies it, and writes no text. -/
lemma processTargets_first_img (j : String) (l : List Elem) (acc : List String) (t0 : Elem)
    (h : l.find? isImg = some t0) :
    processTargets true j l acc = [ClipAction.writeImage t0] := by
  induction l generalizing acc with
  | nil => simp at h
  | cons t ts ih =>
    by_cases ht : isImg t = true
    · rw [List.find?_cons_of_pos _ ht] at h
      cases h
      rw [processTargets]
      simp [ht]
    · rw [List.find?_cons_of_neg _ (by simpa using ht)] at h
      rw [processTargets]
      simp only [ht, Bool.and_false, Bool.false_eq_true, if_false]
      exact ih (acc ++ [extractText t]) h

/-- C5. For a click on a bound element whose merged options have no value
set: the handler collects `document.querySelectorAll(target)` followed by
`copyable.querySelectorAll(targetChildren)` (`collectTargets`); if the
combined list is empty it warns and copies nothing; when `multiple` is false
only the first collected element is selected (`selectTargets`); if image
copying is enabled and some selected target is an `img`, the first such
image is copied to the clipboard and no text is written; otherwise the
extracted texts of all selected targets are joined with `joinText` and
written to the clipboard as one text. -/
theorem copyHandler_no_value_spec (options elementOptions : Options)
    (qDoc qChild : JSVal → List Elem) (hval : truthy elementOptions.value = false) :
    (collectTargets elementOptions qDoc qChild = [] →
      copyHandler options elementOptions qDoc qChild = [ClipAction.warn noTargetsMsg]) ∧
    (collectTargets elementOptions qDoc qChild ≠ [] →
      (∀ t0, boolVal elementOptions.images = true →
        (selectTargets elementOptions (collectTargets elementOptions qDoc qChild)).find? isImg
            = some t0 →
        copyHandler options elementOptions qDoc qChild = [ClipAction.writeImage t0]) ∧
      ((boolVal elementOptions.images = false ∨
          ∀ x ∈ selectTargets elementOptions (collectTargets elementOptions qDoc qChild),
            isImg x = false) →
        copyHandler options elementOptions qDoc qChild =
          [ClipAction.writeText (joinWith (jsString elementOptions.joinText)
            ((selectTargets elementOptions (collectTargets elementOptions qDoc qChild)).map
              extractText))])) := by
  constructor
  · intro hempty
    simp [copyHandler, hval, hempty]
  · intro hne
    have hlen : ¬ (collectTargets elementOptions qDoc qChild).length = 0 := by
      simpa [List.length_eq_zero] using hne
    have hsel : selectTargets elementOptions (collectTargets elementOptions qDoc qChild) ≠ [] := by
      unfold selectTargets
      split
      · exact hne
      · match hc : collectTargets elementOptions qDoc qChild with
        | [] => exact absurd hc hne
        | t :: ts => simp
    constructor
    · intro t0 himg hfind
      rw [copyHandler]
      simp only [hval, Bool.false_eq_true, if_false, hlen, if_false]
      rw [himg]
      exact processTargets_first_img _ _ [] t0 hfind
    · intro hno
      rw [copyHandler]
      simp only [hval, Bool.false_eq_true, if_false, hlen, if_false]
      rw [processTargets_no_img _ _ _ [] ?side]
      case side =>
        rcases hno with hno | hno
        · exact Or.inl hno
        · exact Or.inr hno
      have : (selectTargets elementOptions (collectTargets elementOptions qDoc qChild)).map
          extractText ≠ [] := by
        simpa using hsel
      simp only [List.nil_append]
      rw [if_pos (by simpa [Nat.pos_iff_ne_zero, List.length_eq_zero] using this)]

/-- Witness for C5: a bound element with no value, a `target` selector
matching a paragraph followed by an image, and images enabled: the image is
copied and the paragraph's text is discarded. -/
theorem copyHandler_no_value_spec_witness :
    copyHandler {} { target := JSVal.str "#a" }
        (fun _ => [{ tag := "P", innerText := "one" }, { tag := "IMG", src := "s" }])
        (fun _ => [])
      = [ClipAction.writeImage { tag := "IMG", src := "s" }] :=
  ((copyHandler_no_value_spec {} { target := JSVal.str "#a" }
      (fun _ => [{ tag := "P", innerText := "one" }, { tag := "IMG", src := "s" }])
      (fun _ => []) (by decide)).2 (by decide)).1
    { tag := "IMG", src := "s" } (by decide) (by decide)

/-- Indexing into a `copyClipboard` run: element `i` is processed with the
`i`-th fresh handler identity. -/
lemma copyClipboardRun_getElem (options : Options) (fresh : Nat) (els : List ElemState)
    (i : Nat) :
    (copyClipboardRun options fresh els)[i]? =
      (els[i]?).map (processElement options (fresh + i)) := by
  induction els generalizing fresh i with
  | nil => simp [copyClipboardRun]
  | cons el rest ih =>
    cases i with
    | zero => simp [copyClipboardRun]
    | succ n =>
      have hn : fresh + 1 + n = fresh + (n + 1) := by omega
      simp only [copyClipboardRun, List.getElem?_cons_succ]
      rw [ih (fresh + 1) n, hn]

/-- Case analysis on `processElement`: a skipped element (nothing to copy)
is untouched; a processed element gets the merged options recorded together
with the fresh handler, with any previously recorded handler removed from
the listeners first. -/
lemma processElement_cases (options : Options) (fresh : Nat) (el : ElemState) :
    (hasCopySource (mergeElementOptions el.dataset options) = false →
      processElement options fresh el = el) ∧
    (hasCopySource (mergeElementOptions el.dataset options) = true →
      (processElement options fresh el).dataset = el.dataset ∧
      (processElement options fresh el).record =
        some ⟨fresh, mergeElementOptions el.dataset options⟩ ∧
      (processElement options fresh el).listeners =
        (match el.record with
          | some r => el.listeners.erase r.id
          | none => el.listeners) ++ [fresh]) := by
  constructor
  · intro h
    simp [processElement, h]
  · intro h
    cases hr : el.record <;> simp [processElement, h, hr]

/-- C4. `copyClipboard(element, options)`: when no element matches, no click
handler is installed (the run over the empty match list changes nothing and
only warns). Otherwise each matched element is processed in order; an
element whose merged options have at least one of `target`,
`targetChildren`, `value` truthy gets the merged options recorded together
with a newly registered click listener (the `copyHandler` closure whose
click behaviour is the `copyHandler` model above), while an element with
none of them set is skipped - warned about and left unchanged. -/
theorem copyClipboard_registration (options : Options) (fresh : Nat) (els : List ElemState) :
    copyClipboardRun options fresh [] = [] ∧
    (∀ i el, els[i]? = some el →
      (copyClipboardRun options fresh els)[i]? =
          some (processElement options (fresh + i) el) ∧
      (hasCopySource (mergeElementOptions el.dataset options) = true →
        (processElement options (fresh + i) el).record =
            some ⟨fresh + i, mergeElementOptions el.dataset options⟩ ∧
        (fresh + i) ∈ (processElement options (fresh + i) el).listeners) ∧
      (hasCopySource (mergeElementOptions el.dataset options) = false →
        processElement options (fresh + i) el = el)) := by
  refine ⟨rfl, fun i el hel => ⟨?_, fun h => ⟨?_, ?_⟩, fun h => ?_⟩⟩

  · rw [copyClipboardRun_getElem, hel]
    rfl
  · exact ((processElement_cases options (fresh + i) el).2 h).2.1
  · rw [((processElement_cases options (fresh + i) el).2 h).2.2]
    simp
  · exact (processElement_cases options (fresh + i) el).1 h

/-- Witness for C4: a two-element match list - the first element's dataset
sets `data-copy-target`, so it gets a handler registered with the merged
options; the second has nothing to copy and is left untouched. -/
theorem copyClipboard_registration_witness :
    (copyClipboardRun {} 7 [{ dataset := [("copyTarget", "#x")] }, { dataset := [] }])[0]? =
        some (processElement {} 7 { dataset := [("copyTarget", "#x")] }) ∧
    (processElement {} 7 ({ dataset := [("copyTarget", "#x")] } : ElemState)).record =
        some ⟨7, mergeElementOptions [("copyTarget", "#x")] {}⟩ ∧
    processElement {} 8 ({ dataset := [] } : ElemState) = { dataset := [] } := by
  have h := (copyClipboard_registration {} 7
    [{ dataset := [("copyTarget", "#x")] }, { dataset := [] }]).2
  have h0 := h 0 { dataset := [("copyTarget", "#x")] } rfl
  have h1 := h 1 { dataset := [] } rfl
  exact ⟨h0.1, (h0.2.1 (by decide)).1, h1.2.2 (by decide)⟩

/-- The single-handler invariant of claim C9: the element's registered copy
click listeners are exactly the handler recorded in `_copyClipboard`
(no record - no listener). -/
def handlerInv (el : ElemState) : Bool :=
  match el.record with
  | none => el.listeners == []
  | some r => el.listeners == [r.id]

/-- Processing one element preserves the single-handler invariant, and a
processed (non-skipped) element ends with exactly the fresh listener,
recorded with its merged options. -/
lemma processElement_handlerInv (options : Options) (fresh : Nat) (el : ElemState)
    (h : handlerInv el = true) :
    handlerInv (processElement options fresh el) = true ∧
    (hasCopySource (mergeElementOptions el.dataset options) = true →
      processElement options fresh el =
        { el with record := some ⟨fresh, mergeElementOptions el.dataset options⟩,
                  listeners := [fresh] }) := by
  by_cases hs : hasCopySource (mergeElementOptions el.dataset options) = true
  · cases hr : el.record with
    | none =>
      have hl : el.listeners = [] := by simpa [handlerInv, hr] using h
      constructor
      · simp [processElement, hs, hr, handlerInv, hl]
      · intro _
        simp [processElement, hs, hr, hl]
    | some r =>
      have hl : el.listeners = [r.id] := by simpa [handlerInv, hr] using h
      constructor
      · simp [processElement, hs, hr, handlerInv, hl, List.erase]
      · intro _
        simp [processElement, hs, hr, hl, List.erase]
  · have hs' : hasCopySource (mergeElementOptions el.dataset options) = false := by
      simpa using hs
    rw [(processElement_cases options fresh el).1 hs']
    exact ⟨h, fun hc => absurd hc hs⟩

/-- The single-handler invariant is preserved along a whole
`copyClipboard` run. -/
lemma copyClipboardRun_inv (options : Options) :
    ∀ (els : List ElemState) (fresh : Nat),
      (∀ el ∈ els, handlerInv el = true) →
      ∀ el' ∈ copyClipboardRun options fresh els, handlerInv el' = true := by
  intro els
  induction els with
  | nil =>
    intro fresh _ el' h
    simp [copyClipboardRun] at h
  | cons el rest ih =>
    intro fresh hinv el' hel'
    rw [copyClipboardRun] at hel'
    rcases List.mem_cons.mp hel' with heq | hmem
    · subst heq
      exact (processElement_handlerInv options fresh el (hinv el (by simp))).1
    · exact ih (fresh + 1) (fun x hx => hinv x (by simp [hx])) el' hmem

/-- C9. Every element processed by `copyClipboard` carries at most one
registered copy click handler at any time: if each matched element satisfies
the single-handler invariant beforehand, every element of the run does
afterwards; and for each non-skipped element any previously recorded handler
is removed before the new one is installed, so after installation the
element's listeners are exactly the fresh handler, and `_copyClipboard`
records that handler together with its merged options. -/
theorem copyClipboard_single_handler (options : Options) (fresh : Nat) (els : List ElemState)
    (hinv : ∀ el ∈ els, handlerInv el = true) :
    (∀ el' ∈ copyClipboardRun options fresh els, handlerInv el' = true) ∧
    (∀ (i : Nat) (el : ElemState), els[i]? = some el →
      hasCopySource (mergeElementOptions el.dataset options) = true →
      (copyClipboardRun options fresh els)[i]? =
        some { el with record := some ⟨fresh + i, mergeElementOptions el.dataset options⟩,
                       listeners := [fresh + i] }) := by
  constructor
  · exact copyClipboardRun_inv options els fresh hinv
  · intro i el hel hs
    rw [copyClipboardRun_getElem, hel]
    have hm : el ∈ els := List.get?_mem (by simpa [List.get?_eq_getElem?] using hel)
    rw [Option.map_some']
    rw [(processElement_handlerInv options (fresh + i) el (hinv el hm)).2 hs]

/-- Witness for C9: an element that already carries a recorded handler
(listener `0`) and whose dataset sets `data-copy-target` is re-processed:
the old listener is removed and the element ends with exactly the new
listener `3`, recorded with the merged options. -/
theorem copyClipboard_single_handler_witness :
    (copyClipboardRun { target := JSVal.str "#t" } 3
        [{ dataset := [], listeners := [0], record := some ⟨0, {}⟩ }])[0]? =
      some { dataset := [], listeners := [3],
             record := some ⟨3, mergeElementOptions [] { target := JSVal.str "#t" }⟩ } := by
  have h := (copyClipboard_single_handler { target := JSVal.str "#t" } 3
      [{ dataset := [], listeners := [0], record := some ⟨0, {}⟩ }] (by decide)).2
      0 { dataset := [], listeners := [0], record := some ⟨0, {}⟩ } rfl (by decide)
  simpa using h

/-- Indexing into the `DOMContentLoaded` auto-setup run. -/
lemma onDOMContentLoaded_getElem (fresh : Nat) (els : List ElemState) (i : Nat) :
    (onDOMContentLoaded fresh els)[i]? =
      (els[i]?).map fun el =>
        if hasAutoCopyAttr el then
          processElement (mergeElementOptions el.dataset DEFAULT_OPTIONS) (fresh + i) el
        else el := by
  induction els generalizing fresh i with
  | nil => simp [onDOMContentLoaded]
  | cons el rest ih =>
    cases i with
    | zero => simp [onDOMContentLoaded]
    | succ n =>
      have hn : fresh + 1 + n = fresh + (n + 1) := by omega
      simp only [onDOMContentLoaded, List.getElem?_cons_succ]
      rw [ih (fresh + 1) n, hn]

/-- Merging an element's dataset over already-merged options changes
nothing: dataset entries win again with the same values. -/
lemma datasetGet_idem (d : List (String × String)) (k : String) (x : JSVal) :
    datasetGet d k (datasetGet d k x) = datasetGet d k x := by
  unfold datasetGet
  cases d.lookup k <;> rfl

/-- Idempotence of the per-element option merge. -/
lemma mergeElementOptions_idem (d : List (String × String)) (o : Options) :
    mergeElementOptions d (mergeElementOptions d o) = mergeElementOptions d o := by
  simp [mergeElementOptions, datasetGet_idem]

/-- C6. When `DOMContentLoaded` fires, exactly the elements carrying a
`data-copy-target`, `data-copy-value` or `data-copy-target-children`
attribute are handed to `copyClipboard` with options obtained by merging
their `data-copy-*` attributes over the default options, and all other
elements are untouched; in particular (second conjunct, using that the
merge is idempotent under `copyClipboard`'s re-merge) an element carrying
such an attribute whose merged options leave something to copy ends up with
a handler recorded under exactly those merged-over-defaults options. -/
theorem domContentLoaded_auto_setup (fresh : Nat) (els : List ElemState) :
    ∀ i el, els[i]? = some el →
      ((onDOMContentLoaded fresh els)[i]? =
        some (if hasAutoCopyAttr el then
          processElement (mergeElementOptions el.dataset DEFAULT_OPTIONS) (fresh + i) el
        else el)) ∧
      (hasAutoCopyAttr el = true →
        hasCopySource (mergeElementOptions el.dataset DEFAULT_OPTIONS) = true →
        ∃ el', (onDOMContentLoaded fresh els)[i]? = some el' ∧
          el'.record = some ⟨fresh + i, mergeElementOptions el.dataset DEFAULT_OPTIONS⟩) := by
  intro i el hel
  constructor
  · rw [onDOMContentLoaded_getElem, hel]
    rfl
  · intro hattr hsrc
    refine ⟨processElement (mergeElementOptions el.dataset DEFAULT_OPTIONS) (fresh + i) el,
      ?_, ?_⟩
    · rw [onDOMContentLoaded_getElem, hel]
      simp [hattr]
    · have h := (processElement_cases (mergeElementOptions el.dataset DEFAULT_OPTIONS)
        (fresh + i) el).2
      rw [mergeElementOptions_idem] at h
      exact (h hsrc).2.1

/-- Witness for C6: a document of two elements; the first carries
`data-copy-value="v"` and ends up with a handler recorded under the
merged-over-defaults options, the second carries no `data-copy-*` attribute
and is untouched. -/
theorem domContentLoaded_auto_setup_witness :
    (∃ el', (onDOMContentLoaded 0
        [{ dataset := [("copyValue", "v")] }, { dataset := [("other", "x")] }])[0]? = some el' ∧
      el'.record = some ⟨0, mergeElementOptions [("copyValue", "v")] DEFAULT_OPTIONS⟩) ∧
    (onDOMContentLoaded 0
        [{ dataset := [("copyValue", "v")] }, { dataset := [("other", "x")] }])[1]? =
      some { dataset := [("other", "x")] } := by
  have h0 := domContentLoaded_auto_setup 0
    [{ dataset := [("copyValue", "v")] }, { dataset := [("other", "x")] }]
    0 { dataset := [("copyValue", "v")] } rfl
  have h1 := domContentLoaded_auto_setup 0
    [{ dataset := [("copyValue", "v")] }, { dataset := [("other", "x")] }]
    1 { dataset := [("other", "x")] } rfl
  refine ⟨h0.2 (by decide) (by decide), ?_⟩
  have := h1.1
  simpa using this

end CopyClipboard
